import Mathlib

/-
  Verification development for the libpe core (src/lib/libpe/pe.c).

  The C code is shallowly embedded: the memory mapping becomes a byte
  function together with a size, pointers into the mapping become offsets
  from the base, machine integers become Nat with explicit reduction
  modulo 2 to the 64 (uintptr_t, uint64_t) or 2 to the 32 (unsigned int)
  where the C arithmetic can wrap.  The header pe.h is not part of the
  sources; the handful of structure sizes and field offsets it supplies
  (DOS header, COFF header, the two optional header layouts, the section
  name width) are modelled from the specification text together with the
  standard PE/COFF layout it cites, and are marked below.
-/

namespace LibPE

/-- 2 to the 64, the modulus of uintptr_t and uint64_t arithmetic. -/
def U64MOD : Nat := 2 ^ 64

/-- 2 to the 32, the modulus of unsigned int and uint32_t arithmetic. -/
def U32MOD : Nat := 2 ^ 32

/-- Reduction modulo 2 to the 64 (a uint64_t value). -/
def u64 (n : Nat) : Nat := n % U64MOD

/-- Wrapping 64-bit addition. -/
def u64add (a b : Nat) : Nat := u64 (a + b)

/-- Wrapping 64-bit subtraction: for a, b below 2 to the 64 this is the
value of the C expression a - b on uint64_t operands. -/
def u64sub (a b : Nat) : Nat := u64 (a + (U64MOD - u64 b))

/-- Wrapping 32-bit addition, the result of adding two uint32_t values in
C (usual arithmetic conversions: the sum is computed in unsigned int). -/
def u32add (a b : Nat) : Nat := (a + b) % U32MOD

/- Constants from pe.h.  The values are fixed by the specification
(section 6, Binary format consumed) and by the PE/COFF layout. -/

/-- DOS magic, the two bytes MZ read little-endian. -/
def MAGIC_MZ : Nat := 0x5A4D

/-- NT signature PE backslash-zero backslash-zero, little-endian. -/
def SIGNATURE_PE : Nat := 0x00004550

/-- 16-bit Windows NE signature, little-endian. -/
def SIGNATURE_NE : Nat := 0x0000454E

/-- Optional header magic for PE32 images. -/
def MAGIC_PE32 : Nat := 0x10B

/-- Optional header magic for PE32+ images. -/
def MAGIC_PE64 : Nat := 0x20B

/-- Optional header magic for ROM images. -/
def MAGIC_ROM : Nat := 0x107

/-- Directory count bound from pe.h, fixed by the spec. -/
def MAX_DIRECTORIES : Nat := 16

/-- Section count bound from pe.h, fixed by the spec. -/
def MAX_SECTIONS : Nat := 96

/-- Width of the section Name field, fixed by the spec (8 bytes). -/
def SECTION_NAME_SIZE : Nat := 8

/-- Modelled from the spec: byte offset of e_lfanew in IMAGE_DOS_HEADER
(pe.h is not under src).  The spec fixes it at 0x3C, 4 bytes. -/
def E_LFANEW_OFFSET : Nat := 0x3C

/-- Modelled from the spec: LIBPE_SIZEOF_MEMBER(pe_file_t, signature),
the 32-bit signature tag (4 bytes). -/
def SIZEOF_SIGNATURE : Nat := 4

/-- Modelled from the spec: sizeof(IMAGE_COFF_HEADER), the standard
20-byte COFF file header (pe.h is not under src). -/
def SIZEOF_IMAGE_COFF_HEADER : Nat := 20

/-- Modelled from the spec: sizeof(IMAGE_FILE_HEADER); in pe.h this is
the same 20-byte COFF file header. -/
def SIZEOF_IMAGE_FILE_HEADER : Nat := 20

/-- Modelled from the spec: sizeof(IMAGE_OPTIONAL_HEADER_32), the PE32
optional header without the trailing data directory array (96 bytes,
NumberOfRvaAndSizes is its last field). -/
def SIZEOF_IMAGE_OPTIONAL_HEADER_32 : Nat := 96

/-- Modelled from the spec: sizeof(IMAGE_OPTIONAL_HEADER_64), the PE32+
optional header without the data directory array (112 bytes). -/
def SIZEOF_IMAGE_OPTIONAL_HEADER_64 : Nat := 112

/-- Error codes pe_err_e of pe.h, enumerated by the spec (section 7). -/
inductive pe_err_e where
  | LIBPE_E_OK
  | LIBPE_E_ALLOCATION_FAILURE
  | LIBPE_E_OPEN_FAILED
  | LIBPE_E_FDOPEN_FAILED
  | LIBPE_E_FSTAT_FAILED
  | LIBPE_E_NOT_A_FILE
  | LIBPE_E_MMAP_FAILED
  | LIBPE_E_MUNMAP_FAILED
  | LIBPE_E_CLOSE_FAILED
  | LIBPE_E_NOT_A_PE_FILE
  | LIBPE_E_INVALID_LFANEW
  | LIBPE_E_INVALID_SIGNATURE
  | LIBPE_E_MISSING_COFF_HEADER
  | LIBPE_E_MISSING_OPTIONAL_HEADER
  | LIBPE_E_UNSUPPORTED_IMAGE
  | LIBPE_E_TOO_MANY_DIRECTORIES
  | LIBPE_E_TOO_MANY_SECTIONS
deriving DecidableEq, Repr

export pe_err_e (LIBPE_E_OK LIBPE_E_ALLOCATION_FAILURE LIBPE_E_NOT_A_PE_FILE
  LIBPE_E_INVALID_LFANEW LIBPE_E_INVALID_SIGNATURE LIBPE_E_MISSING_COFF_HEADER
  LIBPE_E_MISSING_OPTIONAL_HEADER LIBPE_E_UNSUPPORTED_IMAGE
  LIBPE_E_TOO_MANY_DIRECTORIES LIBPE_E_TOO_MANY_SECTIONS
  LIBPE_E_MUNMAP_FAILED)

/-- The memory mapping of a loaded file: map_size bytes starting at the
base.  Pointers into the mapping are modelled as byte offsets from the
base.  The byte function is total, as the C dereference of an arbitrary
pointer is: reads outside the first map_size bytes are reads outside
[base, end) and are recorded as such in the access trace. -/
structure PEFile where
  map_size : Nat
  byte : Nat → Nat

/-- Little-endian read of len bytes at offset ofs, the value obtained by
dereferencing a uint8/uint16/uint32/uint64 field of an on-disk header. -/
def readLE (f : PEFile) (ofs : Nat) : Nat → Nat
  | 0 => 0
  | Nat.succ n => f.byte ofs + 256 * readLE f (ofs + 1) n

/-- pe_can_read restricted to offsets into the mapping: with the base
pointer cancelled on both sides of the comparisons (no pointer wrap),
start greater-or-equal base always holds and end less-or-equal map_end
becomes ofs + size less-or-equal map_size.  The pointer-level function
with its uintptr_t wrap is pe_can_read below. -/
def canRead (f : PEFile) (ofs size : Nat) : Bool :=
  decide (ofs + size ≤ f.map_size)

/-- pe_can_read from pe.c, at the pointer level: start and end are
uintptr_t, so the sum start + size is reduced modulo 2 to the 64.
Arguments: the mapping bounds map_addr and map_end and the queried
pointer and size, all uintptr_t or size_t values (below 2 to the 64). -/
def pe_can_read (map_addr map_end ptr size : Nat) : Bool :=
  decide (map_addr ≤ ptr) && decide (u64 (ptr + size) ≤ map_end)

/-- One read through the mapping performed by pe_parse: the byte offset,
the length, and whether a previously succeeded pe_can_read call covers
the bytes read. -/
structure Access where
  ofs : Nat
  len : Nat
  checked : Bool
deriving DecidableEq, Repr

/-- The pe part of pe_ctx_t that pe_parse populates.  Pointers into the
mapping are stored as offsets; none models a NULL pointer.  A
zero-initialized context has every pointer NULL and every number 0. -/
structure PEState where
  dos_hdr : Option Nat := none
  signature : Nat := 0
  coff_hdr : Option Nat := none
  num_sections : Nat := 0
  optional_hdr_ptr : Option Nat := none
  optional_type : Nat := 0
  optional_length : Nat := 0
  num_directories : Nat := 0
  entrypoint : Nat := 0
  imagebase : Nat := 0
  directories_ptr : Option Nat := none
  sections_ptr : Option Nat := none
deriving DecidableEq, Repr

/-- The value of dos_hdr.e_lfanew for a mapping, read unchecked by
pe_parse: 4 bytes little-endian at offset 0x3C. -/
def e_lfanewOf (f : PEFile) : Nat := readLE f E_LFANEW_OFFSET 4

/-- Offset of the COFF header: right after the 4-byte signature. -/
def coffOfsOf (f : PEFile) : Nat := e_lfanewOf f + SIZEOF_SIGNATURE

/-- Offset of the optional header: right after the COFF header. -/
def optOfsOf (f : PEFile) : Nat := coffOfsOf f + SIZEOF_IMAGE_COFF_HEADER

/-- coff_hdr.NumberOfSections: uint16 at offset 2 of the COFF header. -/
def numSectionsOf (f : PEFile) : Nat := readLE f (coffOfsOf f + 2) 2

/-- The 16-bit magic at the start of the optional header. -/
def optTypeOf (f : PEFile) : Nat := readLE f (optOfsOf f) 2

/-- NumberOfRvaAndSizes as pe_parse reads it: last uint32 of the chosen
optional header variant (offset 92 for PE32, 108 for PE32+). -/
def numDirsOf (f : PEFile) : Nat :=
  if optTypeOf f = MAGIC_PE32 then readLE f (optOfsOf f + 92) 4
  else readLE f (optOfsOf f + 108) 4

/-- Tail of pe_parse after the optional header switch: the two count
bounds, then the directory and section pointer tables.  sig_ofs and
opt_ofs are the offsets of the signature and of the optional header.
The malloc of the two pointer arrays is modelled as succeeding. -/
def parseTail (f : PEFile) (sig_ofs opt_ofs : Nat) (st : PEState)
    (tr : List Access) : pe_err_e × PEState × List Access :=
  if st.num_directories > MAX_DIRECTORIES then
    (LIBPE_E_TOO_MANY_DIRECTORIES, st, tr)
  else if st.num_sections > MAX_SECTIONS then
    (LIBPE_E_TOO_MANY_SECTIONS, st, tr)
  else
    -- sections_offset = sizeof signature + sizeof IMAGE_FILE_HEADER
    --                   + coff_hdr->SizeOfOptionalHeader
    -- SizeOfOptionalHeader sits at offset 16 of the COFF header and is
    -- covered by the earlier COFF pe_can_read.
    let aSizeOpt : Access := ⟨sig_ofs + SIZEOF_SIGNATURE + 16, 2, true⟩
    let sizeOfOptionalHeader := readLE f (sig_ofs + SIZEOF_SIGNATURE + 16) 2
    let sections_offset := SIZEOF_SIGNATURE + SIZEOF_IMAGE_FILE_HEADER
      + sizeOfOptionalHeader
    let st := { st with
      directories_ptr := if st.num_directories > 0
        then some (opt_ofs + st.optional_length) else none,
      sections_ptr := if st.num_sections > 0
        then some (sig_ofs + sections_offset) else none }
    (LIBPE_E_OK, st, tr ++ [aSizeOpt])

/-- pe_parse from the COFF header on (everything after the signature
switch accepted the tag).  sig_ofs is the signature offset, st holds the
DOS pointer and the signature, tr the accesses performed so far. -/
def parseCoffOnwards (f : PEFile) (sig_ofs : Nat) (st : PEState)
    (tr : List Access) : pe_err_e × PEState × List Access :=
  let coff_ofs := sig_ofs + SIZEOF_SIGNATURE
  let st := { st with coff_hdr := some coff_ofs }
  if canRead f coff_ofs SIZEOF_IMAGE_COFF_HEADER then
    -- num_sections = coff_hdr->NumberOfSections (uint16 at offset 2),
    -- covered by the COFF pe_can_read that just succeeded.
    let aNumSections : Access := ⟨coff_ofs + 2, 2, true⟩
    let st := { st with num_sections := readLE f (coff_ofs + 2) 2 }
    let opt_ofs := coff_ofs + SIZEOF_IMAGE_COFF_HEADER
    let st := { st with optional_hdr_ptr := some opt_ofs }
    if canRead f opt_ofs 2 then
      let aType : Access := ⟨opt_ofs, 2, true⟩
      let st := { st with optional_type := readLE f opt_ofs 2 }
      if st.optional_type = MAGIC_PE32 then
        if canRead f opt_ofs SIZEOF_IMAGE_OPTIONAL_HEADER_32 then
          let aDirs : Access := ⟨opt_ofs + 92, 4, true⟩
          let aEntry : Access := ⟨opt_ofs + 16, 4, true⟩
          let aBase : Access := ⟨opt_ofs + 28, 4, true⟩
          let st := { st with
            optional_length := SIZEOF_IMAGE_OPTIONAL_HEADER_32,
            num_directories := readLE f (opt_ofs + 92) 4,
            entrypoint := readLE f (opt_ofs + 16) 4,
            imagebase := readLE f (opt_ofs + 28) 4 }
          parseTail f sig_ofs opt_ofs st
            (tr ++ [aNumSections, aType, aDirs, aEntry, aBase])
        else (LIBPE_E_MISSING_OPTIONAL_HEADER, st, tr ++ [aNumSections, aType])
      else if st.optional_type = MAGIC_PE64 then
        if canRead f opt_ofs SIZEOF_IMAGE_OPTIONAL_HEADER_64 then
          let aDirs : Access := ⟨opt_ofs + 108, 4, true⟩
          let aEntry : Access := ⟨opt_ofs + 16, 4, true⟩
          let aBase : Access := ⟨opt_ofs + 24, 8, true⟩
          let st := { st with
            optional_length := SIZEOF_IMAGE_OPTIONAL_HEADER_64,
            num_directories := readLE f (opt_ofs + 108) 4,
            entrypoint := readLE f (opt_ofs + 16) 4,
            imagebase := readLE f (opt_ofs + 24) 8 }
          parseTail f sig_ofs opt_ofs st
            (tr ++ [aNumSections, aType, aDirs, aEntry, aBase])
        else (LIBPE_E_MISSING_OPTIONAL_HEADER, st, tr ++ [aNumSections, aType])
      else
        -- default and MAGIC_ROM fall through to UnsupportedImage.
        (LIBPE_E_UNSUPPORTED_IMAGE, st, tr ++ [aNumSections, aType])
    else (LIBPE_E_MISSING_OPTIONAL_HEADER, st, tr ++ [aNumSections])
  else (LIBPE_E_MISSING_COFF_HEADER, st, tr)

/-- pe_parse from pe.c, instrumented with the list of every read it
performs through the mapping.  The DOS header fields e_magic (2 bytes at
offset 0) and e_lfanew (4 bytes at offset 0x3C) are dereferenced before
any pe_can_read call, so their accesses carry checked := false. -/
def pe_parse (f : PEFile) : pe_err_e × PEState × List Access :=
  let st : PEState := { dos_hdr := some 0 }
  let aMagic : Access := ⟨0, 2, false⟩
  if readLE f 0 2 = MAGIC_MZ then
    let aLfanew : Access := ⟨E_LFANEW_OFFSET, 4, false⟩
    let e_lfanew := readLE f E_LFANEW_OFFSET 4
    if canRead f e_lfanew SIZEOF_SIGNATURE then
      let aSig : Access := ⟨e_lfanew, 4, true⟩
      let st := { st with signature := readLE f e_lfanew 4 }
      if st.signature = SIGNATURE_NE ∨ st.signature = SIGNATURE_PE then
        parseCoffOnwards f e_lfanew st [aMagic, aLfanew, aSig]
      else (LIBPE_E_INVALID_SIGNATURE, st, [aMagic, aLfanew, aSig])
    else (LIBPE_E_INVALID_LFANEW, st, [aMagic, aLfanew])
  else (LIBPE_E_NOT_A_PE_FILE, st, [aMagic])

/-- pe_is_pe from pe.c: DOS header pointer set, e_magic equal to MZ
(read again through the DOS pointer, offset 0 of the mapping), and the
recorded signature equal to PE. -/
def pe_is_pe (f : PEFile) (st : PEState) : Bool :=
  st.dos_hdr.isSome && decide (readLE f 0 2 = MAGIC_MZ)
    && decide (st.signature = SIGNATURE_PE)

/-- IMAGE_SECTION_HEADER, the fields the translator reads.  Name is the
fixed 8-byte name field; the numeric fields are uint32 values
(VirtualSize is Misc.VirtualSize). -/
structure SectionHeader where
  Name : List Nat := []
  VirtualSize : Nat := 0
  VirtualAddress : Nat := 0
  SizeOfRawData : Nat := 0
  PointerToRawData : Nat := 0
deriving DecidableEq, Repr

/-- section_size as pe_rva2ofs computes it: Misc.VirtualSize, replaced
by SizeOfRawData when it is zero. -/
def sectionSizeForRva (s : SectionHeader) : Nat :=
  if s.VirtualSize = 0 then s.SizeOfRawData else s.VirtualSize

/-- The guard of the pe_rva2ofs loop body for one section: the two
nested ifs VirtualAddress less-or-equal rva and VirtualAddress +
section_size greater than rva.  section_size is a size_t, so the sum is
exact (both operands are below 2 to the 32 for genuine uint32 fields). -/
abbrev rvaGuard (s : SectionHeader) (rva : Nat) : Prop :=
  s.VirtualAddress ≤ rva ∧ rva < s.VirtualAddress + sectionSizeForRva s

/-- The scan of pe_rva2ofs over the section table: first section whose
guard holds wins; the stored value is rva - VirtualAddress +
PointerToRawData in wrapping uint64 arithmetic.  (The NULL test on each
section pointer in the C loop never fires: pe_parse fills every slot.) -/
def rva2ofsLoop (rva : Nat) : List SectionHeader → Option Nat
  | [] => none
  | s :: rest =>
    if rvaGuard s rva then
      some (u64add (u64sub rva s.VirtualAddress) s.PointerToRawData)
    else rva2ofsLoop rva rest

/-- pe_rva2ofs from pe.c.  The section table is the list of section
headers pe_parse indexed; an empty list models sections == NULL.  After
a fruitless scan a single-section table still gets the section-0
adjustment, in wrapping uint64 arithmetic; otherwise the rva comes back
unchanged. -/
def pe_rva2ofs (ss : List SectionHeader) (rva : Nat) : Nat :=
  if rva = 0 then 0
  else
    match ss with
    | [] => rva
    | s0 :: rest =>
      match rva2ofsLoop rva (s0 :: rest) with
      | some ofs => ofs
      | none =>
        match rest with
        | [] => u64add (u64sub rva s0.VirtualAddress) s0.PointerToRawData
        | _ :: _ => rva

/-- The guard of the pe_ofs2rva loop body: PointerToRawData
less-or-equal ofs and PointerToRawData + SizeOfRawData greater than ofs.
Both fields are uint32, so the C sum is computed in unsigned int and
wraps modulo 2 to the 32. -/
abbrev ofsGuard (s : SectionHeader) (ofs : Nat) : Prop :=
  s.PointerToRawData ≤ ofs ∧ ofs < u32add s.PointerToRawData s.SizeOfRawData

/-- The scan of pe_ofs2rva over the section table. -/
def ofs2rvaLoop (ofs : Nat) : List SectionHeader → Option Nat
  | [] => none
  | s :: rest =>
    if ofsGuard s ofs then
      some (u64add (u64sub ofs s.PointerToRawData) s.VirtualAddress)
    else ofs2rvaLoop ofs rest

/-- pe_ofs2rva from pe.c: 0 for ofs == 0 or sections == NULL, otherwise
the first raw-range match, and 0 when the scan falls through. -/
def pe_ofs2rva (ss : List SectionHeader) (ofs : Nat) : Nat :=
  if ofs = 0 then 0
  else
    match ss with
    | [] => 0
    | _ :: _ => (ofs2rvaLoop ofs ss).getD 0

/-- The scan of pe_rva2section: start is VirtualAddress as uint64, but
the end bound VirtualAddress + Misc.VirtualSize is a uint32 + uint32 sum
computed in unsigned int, hence reduced modulo 2 to the 32 before being
widened; the comparison against the upper bound is inclusive. -/
def rva2sectionLoop (rva : Nat) : List SectionHeader → Option SectionHeader
  | [] => none
  | s :: rest =>
    let start := s.VirtualAddress
    let stop := u32add s.VirtualAddress s.VirtualSize
    if rva ≥ start ∧ rva ≤ stop then some s
    else rva2sectionLoop rva rest

/-- pe_rva2section from pe.c. -/
def pe_rva2section (ss : List SectionHeader) (rva : Nat) :
    Option SectionHeader :=
  if rva = 0 ∨ ss = [] then none
  else rva2sectionLoop rva ss

/-- The claim C6 rendering of pe_rva2section, written from the words of
the spec: the first section in declared order whose range
[VirtualAddress, VirtualAddress + VirtualSize], upper bound inclusive
and computed exactly, contains the rva; none for rva == 0 or an absent
section table. -/
def rva2sectionSpec (ss : List SectionHeader) (rva : Nat) :
    Option SectionHeader :=
  if rva = 0 ∨ ss = [] then none
  else ss.find? fun s =>
    decide (s.VirtualAddress ≤ rva ∧ rva ≤ s.VirtualAddress + s.VirtualSize)

/-- strncpy(dest, src, n) restricted to the bytes it writes: copies from
src up to and including a terminating zero, then pads with zeros; with
no zero among the first n source bytes exactly n bytes are copied. -/
def strncpyChars (src : List Nat) : Nat → List Nat
  | 0 => []
  | Nat.succ n =>
    match src with
    | [] => 0 :: strncpyChars [] n
    | c :: cs => if c = 0 then 0 :: strncpyChars [] n
                 else c :: strncpyChars cs n

/-- pe_section_name from pe.c, acting on the caller buffer out_name
(modelled as the list of its bytes; the assert demands at least
SECTION_NAME_SIZE + 1 = 9 of them): strncpy of at most 8 bytes of the
Name field, then out_name[SECTION_NAME_SIZE - 1] = 0.  Bytes of the
buffer beyond the first 8 are left untouched. -/
def pe_section_name (section_hdr : SectionHeader) (out_name : List Nat) :
    List Nat :=
  let copied := strncpyChars section_hdr.Name SECTION_NAME_SIZE
  let written := copied ++ out_name.drop SECTION_NAME_SIZE
  written.set (SECTION_NAME_SIZE - 1) 0

/-- The cache slots of pe_ctx_t: true models an owned payload, false a
NULL slot.  Modelled from the spec: the deallocators
pe_imports_dealloc and friends live outside src; per the spec each slot
either owns its payload or is absent, and deallocating an absent slot
does nothing. -/
structure pe_cached_data_t where
  imports : Bool := false
  exports : Bool := false
  hash_headers : Bool := false
  hash_sections : Bool := false
  hash_file : Bool := false
  resources : Bool := false
deriving DecidableEq, Repr

/-- pe_ctx_t for the lifecycle claims: owned path, optional retained
stream, the mapping, the two pointer tables of the parsed index (true
models an allocated table) and the cache.  The zero-initialized context
is the record with every default. -/
structure pe_ctx_t where
  path : Bool := false
  stream : Bool := false
  map_addr : Option Nat := none
  map_size : Nat := 0
  directories : Bool := false
  sections : Bool := false
  cached_data : pe_cached_data_t := {}
deriving DecidableEq, Repr

/-- A zero-initialized pe_ctx_t (memset to zero). -/
def zeroCtx : pe_ctx_t := {}

/-- The observable teardown actions of pe_unload. -/
inductive UnloadEffect where
  | closed_stream
  | freed_path
  | freed_directories
  | freed_sections
  | dealloc_imports
  | dealloc_exports
  | dealloc_hash_headers
  | dealloc_hash_sections
  | dealloc_hash_file
  | dealloc_resources
  | unmapped
deriving DecidableEq, Repr

/-- cleanup_cached_data from pe.c: run the six registered deallocators
(a no-op on an absent payload), then zero the cache. -/
def cleanup_cached_data (c : pe_cached_data_t) : List UnloadEffect :=
  (if c.imports then [UnloadEffect.dealloc_imports] else [])
  ++ (if c.exports then [UnloadEffect.dealloc_exports] else [])
  ++ (if c.hash_headers then [UnloadEffect.dealloc_hash_headers] else [])
  ++ (if c.hash_sections then [UnloadEffect.dealloc_hash_sections] else [])
  ++ (if c.hash_file then [UnloadEffect.dealloc_hash_file] else [])
  ++ (if c.resources then [UnloadEffect.dealloc_resources] else [])

/-- pe_unload from pe.c.  munmap_ok supplies the verdict of the munmap
system call when a mapping exists; free(NULL) and fclose of an absent
stream do nothing.  When munmap fails the error returns before the final
memset, so the context keeps its (now dangling) fields except for the
cache, which cleanup_cached_data has already zeroed; otherwise the whole
context is zeroed.  The process-global OpenSSL teardown is outside the
specified core (spec sections 1 and 9) and is not modelled. -/
def pe_unload (munmap_ok : Bool) (ctx : pe_ctx_t) :
    pe_err_e × pe_ctx_t × List UnloadEffect :=
  let eff := (if ctx.stream then [UnloadEffect.closed_stream] else [])
    ++ (if ctx.path then [UnloadEffect.freed_path] else [])
    ++ (if ctx.directories then [UnloadEffect.freed_directories] else [])
    ++ (if ctx.sections then [UnloadEffect.freed_sections] else [])
    ++ cleanup_cached_data ctx.cached_data
  match ctx.map_addr with
  | some _ =>
    if munmap_ok then (LIBPE_E_OK, zeroCtx, eff ++ [UnloadEffect.unmapped])
    else (LIBPE_E_MUNMAP_FAILED, { ctx with cached_data := {} }, eff)
  | none => (LIBPE_E_OK, zeroCtx, eff)

/- Concrete inputs used by the counterexamples and witnesses. -/

/-- A 3-byte mapping holding the bytes 4D 5A 00: the MZ magic plus one
byte.  The byte function also fixes what the C dereference of an
out-of-mapping offset would observe (zeros, as on a fresh page). -/
def tinyMZ : PEFile :=
  ⟨3, fun i => if i = 0 then 0x4D else if i = 1 then 0x5A else 0⟩

/-- A 0x44-byte mapping: MZ magic, e_lfanew = 0x40, and the NE signature
as the last four bytes, so the signature read is in bounds but the COFF
header is not. -/
def neShort : PEFile :=
  ⟨0x44, fun i =>
    if i = 0 then 0x4D else if i = 1 then 0x5A
    else if i = 0x3C then 0x40
    else if i = 0x40 then 0x4E else if i = 0x41 then 0x45
    else 0⟩

/-- A 184-byte mapping that passes every step of pe_parse up to the
bound checks: MZ magic, e_lfanew = 0x40, PE signature, 1 section, PE32
optional magic, and NumberOfRvaAndSizes = 17. -/
def pe17Dirs : PEFile :=
  ⟨184, fun i =>
    if i = 0 then 0x4D else if i = 1 then 0x5A
    else if i = 0x3C then 0x40
    else if i = 0x40 then 0x50 else if i = 0x41 then 0x45
    else if i = 70 then 1
    else if i = 88 then 0x0B else if i = 89 then 0x01
    else if i = 180 then 17
    else 0⟩

/-- A section whose Name field holds the 8 non-NUL bytes ABCDEFGH. -/
def sectionABCDEFGH : SectionHeader :=
  { Name := [65, 66, 67, 68, 69, 70, 71, 72] }

/-- A section whose raw data starts at file offset 0:
VirtualAddress 0x1000, VirtualSize 0x200, SizeOfRawData 0x200,
PointerToRawData 0. -/
def sectionRawAtZero : SectionHeader :=
  { Name := [0x2E, 0x74, 0x65, 0x78, 0x74, 0, 0, 0],
    VirtualSize := 0x200, VirtualAddress := 0x1000,
    SizeOfRawData := 0x200, PointerToRawData := 0 }

/-- The .text section of scenario 1 of the spec: VirtualAddress 0x1000,
VirtualSize 0x200, SizeOfRawData 0x200, PointerToRawData 0x200. -/
def sectionText : SectionHeader :=
  { Name := [0x2E, 0x74, 0x65, 0x78, 0x74, 0, 0, 0],
    VirtualSize := 0x200, VirtualAddress := 0x1000,
    SizeOfRawData := 0x200, PointerToRawData := 0x200 }

/-- The section of spec scenario 7 and of claims C7 and C10:
VirtualAddress 0x2000, VirtualSize 0, SizeOfRawData 0x400,
PointerToRawData 0x400. -/
def sectionVS0 : SectionHeader :=
  { Name := [0x2E, 0x64, 0x61, 0x74, 0x61, 0, 0, 0],
    VirtualSize := 0, VirtualAddress := 0x2000,
    SizeOfRawData := 0x400, PointerToRawData := 0x400 }

/-- A section whose 32-bit sum VirtualAddress + VirtualSize wraps:
VirtualAddress 0xFFFFFFFF, VirtualSize 2. -/
def sectionVAWrap : SectionHeader :=
  { Name := [0x2E, 0x77, 0, 0, 0, 0, 0, 0],
    VirtualSize := 2, VirtualAddress := 0xFFFFFFFF,
    SizeOfRawData := 0, PointerToRawData := 0 }

/- Helper lemmas about the wrapping arithmetic and the scans. -/

theorem u64_eq_of_lt {a : Nat} (h : a < U64MOD) : u64 a = a :=
  Nat.mod_eq_of_lt h

theorem u64add_eq {a b : Nat} (h : a + b < U64MOD) : u64add a b = a + b :=
  Nat.mod_eq_of_lt h

theorem u64sub_eq {a b : Nat} (hba : b ≤ a) (ha : a < U64MOD) :
    u64sub a b = a - b := by
  have hb : b < U64MOD := lt_of_le_of_lt hba ha
  unfold u64sub u64
  rw [Nat.mod_eq_of_lt hb]
  have hsplit : a + (U64MOD - b) = (a - b) + U64MOD := by omega
  rw [hsplit, Nat.add_mod_right]
  exact Nat.mod_eq_of_lt (lt_of_le_of_lt (Nat.sub_le a b) ha)

theorem u32add_eq {a b : Nat} (h : a + b < U32MOD) : u32add a b = a + b :=
  Nat.mod_eq_of_lt h

theorem rva2ofsLoop_append (rva : Nat) (pre rest : List SectionHeader)
    (h : ∀ T ∈ pre, ¬ rvaGuard T rva) :
    rva2ofsLoop rva (pre ++ rest) = rva2ofsLoop rva rest := by
  induction pre with
  | nil => rfl
  | cons s tl ih =>
    have hs : ¬ rvaGuard s rva := h s (List.mem_cons_self s tl)
    rw [List.cons_append]
    simp only [rva2ofsLoop]
    rw [if_neg hs]
    exact ih fun T hT => h T (List.mem_cons_of_mem s hT)

theorem ofs2rvaLoop_append (ofs : Nat) (pre rest : List SectionHeader)
    (h : ∀ T ∈ pre, ¬ ofsGuard T ofs) :
    ofs2rvaLoop ofs (pre ++ rest) = ofs2rvaLoop ofs rest := by
  induction pre with
  | nil => rfl
  | cons s tl ih =>
    have hs : ¬ ofsGuard s ofs := h s (List.mem_cons_self s tl)
    rw [List.cons_append]
    simp only [ofs2rvaLoop]
    rw [if_neg hs]
    exact ih fun T hT => h T (List.mem_cons_of_mem s hT)

theorem pe_rva2ofs_of_some {ss : List SectionHeader} {rva o : Nat}
    (h0 : rva ≠ 0) (h : rva2ofsLoop rva ss = some o) :
    pe_rva2ofs ss rva = o := by
  cases ss with
  | nil => simp [rva2ofsLoop] at h
  | cons s rest => simp [pe_rva2ofs, h0, h]

theorem pe_ofs2rva_of_some {ss : List SectionHeader} {ofs r : Nat}
    (h0 : ofs ≠ 0) (h : ofs2rvaLoop ofs ss = some r) :
    pe_ofs2rva ss ofs = r := by
  cases ss with
  | nil => simp [ofs2rvaLoop] at h
  | cons s rest => simp [pe_ofs2rva, h0, h]

theorem rva2sectionLoop_eq_find (rva : Nat) (ss : List SectionHeader)
    (h : ∀ s ∈ ss, s.VirtualAddress + s.VirtualSize < U32MOD) :
    rva2sectionLoop rva ss = ss.find? fun s =>
      decide (s.VirtualAddress ≤ rva ∧
        rva ≤ s.VirtualAddress + s.VirtualSize) := by
  induction ss with
  | nil => rfl
  | cons s tl ih =>
    have hs := h s (List.mem_cons_self s tl)
    simp only [rva2sectionLoop]
    rw [u32add_eq hs]
    by_cases hm : s.VirtualAddress ≤ rva ∧
        rva ≤ s.VirtualAddress + s.VirtualSize
    · rw [if_pos ⟨hm.1, hm.2⟩, List.find?_cons_of_pos _ (by simpa using hm)]
    · rw [if_neg fun hc => hm ⟨hc.1, hc.2⟩,
        List.find?_cons_of_neg _ (by simpa using hm)]
      exact ih fun T hT => h T (List.mem_cons_of_mem s hT)

theorem parseTail_signature (f : PEFile) (sig_ofs opt_ofs : Nat)
    (st : PEState) (tr : List Access) :
    ((parseTail f sig_ofs opt_ofs st tr).2.1).signature = st.signature := by
  unfold parseTail
  split_ifs <;> rfl

theorem parseCoffOnwards_signature (f : PEFile) (sig_ofs : Nat)
    (st : PEState) (tr : List Access) :
    ((parseCoffOnwards f sig_ofs st tr).2.1).signature = st.signature := by
  simp only [parseCoffOnwards]
  split_ifs <;> simp [parseTail_signature]

theorem pe_parse_reduction (f : PEFile)
    (h1 : readLE f 0 2 = MAGIC_MZ)
    (h2 : canRead f (e_lfanewOf f) SIZEOF_SIGNATURE = true)
    (h3 : readLE f (e_lfanewOf f) 4 = SIGNATURE_NE ∨
          readLE f (e_lfanewOf f) 4 = SIGNATURE_PE) :
    pe_parse f = parseCoffOnwards f (e_lfanewOf f)
      { dos_hdr := some 0, signature := readLE f (e_lfanewOf f) 4 }
      [⟨0, 2, false⟩, ⟨E_LFANEW_OFFSET, 4, false⟩,
       ⟨e_lfanewOf f, 4, true⟩] := by
  simp only [e_lfanewOf] at h2 h3 ⊢
  simp only [pe_parse]
  rcases h3 with h3 | h3 <;> rw [h1, h3] <;> simp [h2]

theorem parseTail_too_many_dirs {f : PEFile} {so oo : Nat} {st : PEState}
    {tr : List Access} (hd : MAX_DIRECTORIES < st.num_directories) :
    (parseTail f so oo st tr).1 = LIBPE_E_TOO_MANY_DIRECTORIES := by
  unfold parseTail
  rw [if_pos hd]

theorem parseTail_too_many_sections {f : PEFile} {so oo : Nat}
    {st : PEState} {tr : List Access}
    (hd : st.num_directories ≤ MAX_DIRECTORIES)
    (hs : MAX_SECTIONS < st.num_sections) :
    (parseTail f so oo st tr).1 = LIBPE_E_TOO_MANY_SECTIONS := by
  unfold parseTail
  rw [if_neg (by omega), if_pos hs]

theorem parseTail_ok_bounds {f : PEFile} {so oo : Nat} {st : PEState}
    {tr : List Access} (h : (parseTail f so oo st tr).1 = LIBPE_E_OK) :
    (parseTail f so oo st tr).2.1.num_directories ≤ MAX_DIRECTORIES ∧
    (parseTail f so oo st tr).2.1.num_sections ≤ MAX_SECTIONS := by
  unfold parseTail at h ⊢
  split_ifs at h ⊢ with hd hs
  all_goals refine ⟨?_, ?_⟩ <;> simp <;> omega

theorem parseCoffOnwards_to_tail (f : PEFile) (sig_ofs : Nat)
    (st : PEState) (tr : List Access)
    (h4 : canRead f (sig_ofs + SIZEOF_SIGNATURE)
      SIZEOF_IMAGE_COFF_HEADER = true)
    (h5 : canRead f
      (sig_ofs + SIZEOF_SIGNATURE + SIZEOF_IMAGE_COFF_HEADER) 2 = true)
    (h6 : (readLE f
            (sig_ofs + SIZEOF_SIGNATURE + SIZEOF_IMAGE_COFF_HEADER) 2
              = MAGIC_PE32 ∧
           canRead f (sig_ofs + SIZEOF_SIGNATURE + SIZEOF_IMAGE_COFF_HEADER)
             SIZEOF_IMAGE_OPTIONAL_HEADER_32 = true) ∨
          (readLE f
            (sig_ofs + SIZEOF_SIGNATURE + SIZEOF_IMAGE_COFF_HEADER) 2
              = MAGIC_PE64 ∧
           canRead f (sig_ofs + SIZEOF_SIGNATURE + SIZEOF_IMAGE_COFF_HEADER)
             SIZEOF_IMAGE_OPTIONAL_HEADER_64 = true)) :
    ∃ st2 tr2,
      parseCoffOnwards f sig_ofs st tr =
        parseTail f sig_ofs
          (sig_ofs + SIZEOF_SIGNATURE + SIZEOF_IMAGE_COFF_HEADER) st2 tr2 ∧
      st2.num_directories =
        (if readLE f
            (sig_ofs + SIZEOF_SIGNATURE + SIZEOF_IMAGE_COFF_HEADER) 2
              = MAGIC_PE32
         then readLE f
           (sig_ofs + SIZEOF_SIGNATURE + SIZEOF_IMAGE_COFF_HEADER + 92) 4
         else readLE f
           (sig_ofs + SIZEOF_SIGNATURE + SIZEOF_IMAGE_COFF_HEADER + 108) 4) ∧
      st2.num_sections = readLE f (sig_ofs + SIZEOF_SIGNATURE + 2) 2 := by
  rcases h6 with ⟨ht, hc⟩ | ⟨ht, hc⟩ <;>
    simp only [parseCoffOnwards] <;>
    rw [ht] <;>
    simp [h4, h5, hc, MAGIC_PE32, MAGIC_PE64] <;>
    exact ⟨_, ⟨_, rfl⟩, rfl, rfl⟩

/- Claim theorems. -/

/-- C1: the claim is right and the code is wrong.  The claim demands
that every read pe_parse performs be preceded by a successful
pe_can_read covering the bytes read, in particular step 1 of parse on a
mapping too small to hold the DOS header fields.  pe_parse, however,
dereferences e_magic and e_lfanew before any pe_can_read call: on the
3-byte mapping 4D 5A 00 the access trace contains the unchecked 4-byte
read at offset 0x3C, which ends at 0x40, past the mapping end 3. -/
theorem C1_parse_reads_lfanew_out_of_bounds :
    (pe_parse tinyMZ).1 = LIBPE_E_INVALID_LFANEW ∧
    Access.mk 0x3C 4 false ∈ (pe_parse tinyMZ).2.2 ∧
    tinyMZ.map_size < 0x3C + 4 := by decide

/-- C2: the claim is right and the code is wrong.  pe_section_name
requires (by assertion) an output buffer of SECTION_NAME_SIZE + 1 = 9
bytes, but then writes its terminating NUL at index
SECTION_NAME_SIZE - 1 = 7: on a section whose Name field holds the 8
non-NUL bytes ABCDEFGH it produces ABCDEFG followed by NUL at index 7,
the eighth name byte is lost and the ninth buffer byte (here 204) is
never touched, instead of the claimed 8 name bytes plus NUL. -/
theorem C2_section_name_drops_eighth_byte :
    pe_section_name sectionABCDEFGH (List.replicate 9 204) =
      [65, 66, 67, 68, 69, 70, 71, 0, 204] ∧
    pe_section_name sectionABCDEFGH (List.replicate 9 204) ≠
      [65, 66, 67, 68, 69, 70, 71, 72, 0] := by decide

/-- C5, counterexample: pe_can_read computes start + size in uintptr_t,
which wraps modulo 2 to the 64.  With a mapping [16, 32), the pointer
2 to the 64 minus 8 and size 16, the wrapped end is 8, inside the
mapping bound, so pe_can_read answers true although the exact sum
exceeds the mapping end — exactly the wrap-around the claim rules
out. -/
theorem C5_can_read_wrap_cex :
    pe_can_read 16 32 (2 ^ 64 - 8) 16 = true ∧
    ¬ ((2 ^ 64 - 8) + 16 ≤ 32) := by decide

/-- C5, amended: pe_can_read answers true exactly when base is at or
below the pointer and the sum pointer + size, reduced modulo 2 to the
64, is at or below the mapping end; whenever that sum does not overflow
a uintptr_t this is the exact containment test of the claim. -/
theorem C5_can_read_characterization (map_addr map_end ptr size : Nat) :
    (pe_can_read map_addr map_end ptr size = true ↔
      map_addr ≤ ptr ∧ u64 (ptr + size) ≤ map_end) ∧
    (ptr + size < U64MOD →
      (pe_can_read map_addr map_end ptr size = true ↔
        map_addr ≤ ptr ∧ ptr + size ≤ map_end)) := by
  refine ⟨by simp [pe_can_read], fun h => ?_⟩
  simp [pe_can_read, u64_eq_of_lt h]

/-- C5, witness: the characterization applied to the mapping [0, 10),
pointer 0, size 4, where no wrap occurs. -/
theorem C5_can_read_witness :
    (0 : Nat) + 4 < U64MOD ∧
    (pe_can_read 0 10 0 4 = true ↔ (0 : Nat) ≤ 0 ∧ (0 : Nat) + 4 ≤ 10) :=
  ⟨by decide, (C5_can_read_characterization 0 10 0 4).2 (by decide)⟩

/-- C7: pe_rva2ofs scans the sections in declared order with
section_size equal to VirtualSize when non-zero and SizeOfRawData
otherwise, and for the first section whose half-open range contains the
rva it returns rva - VirtualAddress + PointerToRawData.  The two
remainder hypotheses state that the rva and the resulting offset fit in
a uint64, which for genuine uint32 section fields and a uint64 rva
inside the section always holds. -/
theorem C7_rva2ofs_first_match (pre post : List SectionHeader)
    (S : SectionHeader) (rva : Nat)
    (hpre : ∀ T ∈ pre, ¬ rvaGuard T rva)
    (hm : rvaGuard S rva)
    (h0 : rva ≠ 0) (h64 : rva < U64MOD)
    (hofs : rva - S.VirtualAddress + S.PointerToRawData < U64MOD) :
    pe_rva2ofs (pre ++ S :: post) rva =
      rva - S.VirtualAddress + S.PointerToRawData := by
  have hloop : rva2ofsLoop rva (pre ++ S :: post) =
      some (u64add (u64sub rva S.VirtualAddress) S.PointerToRawData) := by
    rw [rva2ofsLoop_append rva pre _ hpre]
    simp only [rva2ofsLoop]
    rw [if_pos hm]
  rw [pe_rva2ofs_of_some h0 hloop, u64sub_eq hm.1 h64, u64add_eq hofs]

/-- C7, witness: the concrete instance named by the claim, a single
section with VirtualAddress 0x2000, VirtualSize 0, SizeOfRawData 0x400
and PointerToRawData 0x400, where rva 0x2100 lands at offset 0x500. -/
theorem C7_rva2ofs_example : pe_rva2ofs [sectionVS0] 0x2100 = 0x500 :=
  Eq.trans
    (C7_rva2ofs_first_match [] [] sectionVS0 0x2100 (by simp) (by decide)
      (by decide) (by decide) (by decide))
    (by decide)

/-- C9: pe_unload on a zero-initialized context returns LIBPE_E_OK,
performs no observable teardown action (no fclose, no free with a
payload, no deallocator with a payload, no munmap) and leaves the
context all-zero, for either verdict the munmap call would have
returned had it been reached. -/
theorem C9_unload_zero_ctx (munmap_ok : Bool) :
    pe_unload munmap_ok zeroCtx = (LIBPE_E_OK, zeroCtx, []) := by
  cases munmap_ok <;> rfl

/-- C9, witness: the theorem at the concrete verdict true. -/
theorem C9_unload_zero_ctx_witness :
    pe_unload true zeroCtx = (LIBPE_E_OK, zeroCtx, []) :=
  C9_unload_zero_ctx true

/-- C10: on a parsed context with exactly one section, a nonzero rva
that the section scan does not match still gets the single-section
adjustment rva - VirtualAddress + PointerToRawData, computed in
wrapping 64-bit unsigned arithmetic, so an rva below the section start
underflows to a huge offset instead of producing an error or the
unchanged rva. -/
theorem C10_single_section_underflow (s : SectionHeader) (rva : Nat)
    (h0 : rva ≠ 0)
    (hva : s.VirtualAddress < U32MOD)
    (hnm : ¬ rvaGuard s rva) :
    pe_rva2ofs [s] rva =
      ((rva + (U64MOD - s.VirtualAddress)) + s.PointerToRawData) % U64MOD := by
  have hva64 : s.VirtualAddress < U64MOD := by
    unfold U32MOD U64MOD at *
    omega
  have hloop : rva2ofsLoop rva [s] = none := by
    simp only [rva2ofsLoop]
    rw [if_neg hnm]
  simp only [pe_rva2ofs]
  rw [if_neg h0, hloop]
  unfold u64add u64sub u64
  rw [Nat.mod_eq_of_lt hva64, Nat.mod_add_mod]

/-- C10, witness: the single section with VirtualAddress 0x2000,
VirtualSize 0, SizeOfRawData 0x400, PointerToRawData 0x400 and the
rva 0x100 below the section: the adjustment underflows to
2 to the 64 minus 0x1B00. -/
theorem C10_underflow_example :
    pe_rva2ofs [sectionVS0] 0x100 = 18446744073709544704 :=
  Eq.trans
    (C10_single_section_underflow sectionVS0 0x100 (by decide) (by decide)
      (by decide))
    (by decide)

/-- C3, counterexample: the claim fails as stated.  The section
sectionRawAtZero satisfies every hypothesis of the claim at rva 0x1000
(the rva lies inside the section, VirtualSize 0x200 is positive, and
0x1000 is below VirtualAddress + SizeOfRawData = 0x1200), yet the round
trip returns 0, not 0x1000: its raw data starts at file offset 0, the
rva maps to offset 0, and pe_ofs2rva returns 0 on offset 0 before ever
scanning the section table. -/
theorem C3_roundtrip_cex :
    (0 < sectionRawAtZero.VirtualSize ∧
     sectionRawAtZero.VirtualAddress ≤ 0x1000 ∧
     0x1000 <
       sectionRawAtZero.VirtualAddress + sectionRawAtZero.VirtualSize ∧
     0x1000 <
       sectionRawAtZero.VirtualAddress + sectionRawAtZero.SizeOfRawData) ∧
    pe_ofs2rva [sectionRawAtZero] (pe_rva2ofs [sectionRawAtZero] 0x1000)
      = 0 ∧
    (0 : Nat) ≠ 0x1000 := by decide

/-- C3, amended: offset_to_rva inverts rva_to_offset at r provided S is
the first section the rva scan matches, S.VirtualSize is positive, r is
below VirtualAddress + SizeOfRawData, the resulting offset
r - VirtualAddress + PointerToRawData is nonzero, no earlier section
raw range captures that offset, and the uint32/uint64 field bounds of
the C types hold (stated as the three remainder hypotheses). -/
theorem C3_roundtrip (pre post : List SectionHeader) (S : SectionHeader)
    (r : Nat)
    (hpre : ∀ T ∈ pre, ¬ rvaGuard T r)
    (hVS : 0 < S.VirtualSize)
    (hlo : S.VirtualAddress ≤ r)
    (hhi : r < S.VirtualAddress + S.VirtualSize)
    (hraw : r < S.VirtualAddress + S.SizeOfRawData)
    (h64 : r < U64MOD)
    (hofs64 : r - S.VirtualAddress + S.PointerToRawData < U64MOD)
    (hofs0 : r - S.VirtualAddress + S.PointerToRawData ≠ 0)
    (hnw : S.PointerToRawData + S.SizeOfRawData < U32MOD)
    (hpre2 : ∀ T ∈ pre,
      ¬ ofsGuard T (r - S.VirtualAddress + S.PointerToRawData)) :
    pe_ofs2rva (pre ++ S :: post) (pe_rva2ofs (pre ++ S :: post) r) = r := by
  by_cases hr0 : r = 0
  · subst hr0
    cases pre <;> simp [pe_rva2ofs, pe_ofs2rva]
  · have hm : rvaGuard S r := by
      refine ⟨hlo, ?_⟩
      unfold sectionSizeForRva
      rw [if_neg (Nat.pos_iff_ne_zero.mp hVS)]
      exact hhi
    have hloop : rva2ofsLoop r (pre ++ S :: post) =
        some (u64add (u64sub r S.VirtualAddress) S.PointerToRawData) := by
      rw [rva2ofsLoop_append r pre _ hpre]
      simp only [rva2ofsLoop]
      rw [if_pos hm]
    have hval : u64add (u64sub r S.VirtualAddress) S.PointerToRawData =
        r - S.VirtualAddress + S.PointerToRawData := by
      rw [u64sub_eq hlo h64, u64add_eq hofs64]
    have h1 : pe_rva2ofs (pre ++ S :: post) r =
        r - S.VirtualAddress + S.PointerToRawData := by
      rw [pe_rva2ofs_of_some hr0 hloop, hval]
    have hg : ofsGuard S (r - S.VirtualAddress + S.PointerToRawData) := by
      refine ⟨Nat.le_add_left _ _, ?_⟩
      rw [u32add_eq hnw]
      omega
    have hloop2 : ofs2rvaLoop (r - S.VirtualAddress + S.PointerToRawData)
        (pre ++ S :: post) =
        some (u64add
          (u64sub (r - S.VirtualAddress + S.PointerToRawData)
            S.PointerToRawData)
          S.VirtualAddress) := by
      rw [ofs2rvaLoop_append _ pre _ hpre2]
      simp only [ofs2rvaLoop]
      rw [if_pos hg]
    have hval2 : u64add
        (u64sub (r - S.VirtualAddress + S.PointerToRawData)
          S.PointerToRawData)
        S.VirtualAddress = r := by
      rw [u64sub_eq (Nat.le_add_left _ _) hofs64]
      have hd : r - S.VirtualAddress + S.PointerToRawData
          - S.PointerToRawData = r - S.VirtualAddress := by omega
      rw [hd, u64add_eq (by omega)]
      omega
    rw [h1, pe_ofs2rva_of_some hofs0 (hval2 ▸ hloop2)]

/-- C3, witness: the .text section of spec scenario 1 (VirtualAddress
0x1000, VirtualSize 0x200, SizeOfRawData 0x200, PointerToRawData 0x200)
and the rva 0x1050, which round-trips through offset 0x250. -/
theorem C3_roundtrip_example :
    pe_ofs2rva [sectionText] (pe_rva2ofs [sectionText] 0x1050) = 0x1050 :=
  C3_roundtrip [] [] sectionText 0x1050 (by simp) (by decide) (by decide)
    (by decide) (by decide) (by decide) (by decide) (by decide) (by decide)
    (by simp)

/-- C6, counterexample: the claim fails as stated.  The C loop computes
the inclusive upper bound VirtualAddress + Misc.VirtualSize as a
uint32 + uint32 sum, which wraps modulo 2 to the 32 before being
widened to the uint64 comparison: for a section with VirtualAddress
0xFFFFFFFF and VirtualSize 2 the bound wraps to 1, so the rva
0xFFFFFFFF, although inside the claimed range
[VirtualAddress, VirtualAddress + VirtualSize], finds no section, while
the rendering of the claim returns that section. -/
theorem C6_rva2section_wrap_cex :
    pe_rva2section [sectionVAWrap] 0xFFFFFFFF = none ∧
    rva2sectionSpec [sectionVAWrap] 0xFFFFFFFF = some sectionVAWrap := by
  decide

/-- C6, amended: pe_rva2section returns the first section in declared
order containing the rva in [VirtualAddress, VirtualAddress +
VirtualSize] with the upper bound inclusive but computed modulo 2 to
the 32, and none for rva 0 or an absent section table; whenever no
section has VirtualAddress + VirtualSize overflowing a uint32, this is
exactly the first-match rule of the claim (rva2sectionSpec). -/
theorem C6_rva2section_first_match (ss : List SectionHeader) (rva : Nat)
    (h : ∀ s ∈ ss, s.VirtualAddress + s.VirtualSize < U32MOD) :
    pe_rva2section ss rva = rva2sectionSpec ss rva := by
  unfold pe_rva2section rva2sectionSpec
  split_ifs with h0
  · rfl
  · exact rva2sectionLoop_eq_find rva ss h

/-- C6, witness: the section table of spec scenario 1, where no 32-bit
overflow occurs, at rva 0x1050. -/
theorem C6_rva2section_example :
    pe_rva2section [sectionText] 0x1050 =
      rva2sectionSpec [sectionText] 0x1050 :=
  C6_rva2section_first_match [sectionText] 0x1050 (by decide)

/-- C4, counterexample: the claim that pe_parse stops after the
signature step on an NE file fails.  On neShort the signature read
yields SIGNATURE_NE and pe_parse then goes on to the COFF header: its
bounds check fails and pe_parse returns LIBPE_E_MISSING_COFF_HEADER, an
error that can only arise from the COFF step after the signature was
accepted — parsing did not stop at the signature. -/
theorem C4_ne_parse_proceeds_cex :
    (pe_parse neShort).2.1.signature = SIGNATURE_NE ∧
    (pe_parse neShort).1 = LIBPE_E_MISSING_COFF_HEADER ∧
    (pe_parse neShort).1 ≠ LIBPE_E_OK := by decide

/-- C4, amended: a mapping whose signature reads NE passes the
signature switch and pe_parse proceeds to the COFF and optional headers
exactly as for a PE signature (the remainder of the parse is the common
continuation parseCoffOnwards), and pe_is_pe is false on the resulting
context whatever the continuation does, because the recorded signature
stays NE and differs from PE. -/
theorem C4_ne_parses_like_pe (f : PEFile)
    (h1 : readLE f 0 2 = MAGIC_MZ)
    (h2 : canRead f (e_lfanewOf f) SIZEOF_SIGNATURE = true)
    (h3 : readLE f (e_lfanewOf f) 4 = SIGNATURE_NE) :
    pe_parse f = parseCoffOnwards f (e_lfanewOf f)
      { dos_hdr := some 0, signature := SIGNATURE_NE }
      [⟨0, 2, false⟩, ⟨E_LFANEW_OFFSET, 4, false⟩,
       ⟨e_lfanewOf f, 4, true⟩] ∧
    pe_is_pe f (pe_parse f).2.1 = false := by
  have hred := pe_parse_reduction f h1 h2 (Or.inl h3)
  rw [h3] at hred
  refine ⟨hred, ?_⟩
  have hsig : (pe_parse f).2.1.signature = SIGNATURE_NE := by
    rw [hred, parseCoffOnwards_signature]
  simp [pe_is_pe, hsig, SIGNATURE_NE, SIGNATURE_PE]

/-- C4, witness: the amended theorem applied to the concrete NE mapping
neShort. -/
theorem C4_ne_witness :
    pe_parse neShort = parseCoffOnwards neShort (e_lfanewOf neShort)
      { dos_hdr := some 0, signature := SIGNATURE_NE }
      [⟨0, 2, false⟩, ⟨E_LFANEW_OFFSET, 4, false⟩,
       ⟨e_lfanewOf neShort, 4, true⟩] ∧
    pe_is_pe neShort (pe_parse neShort).2.1 = false :=
  C4_ne_parses_like_pe neShort (by decide) (by decide) (by decide)

/-- A mapping passes the steps of pe_parse up to and including the
optional header classification: MZ magic, readable signature, PE or NE
tag, readable COFF header, readable optional magic, and a PE32 or PE32+
magic whose full optional header is readable. -/
abbrev passesClassification (f : PEFile) : Prop :=
  readLE f 0 2 = MAGIC_MZ ∧
  canRead f (e_lfanewOf f) SIZEOF_SIGNATURE = true ∧
  (readLE f (e_lfanewOf f) 4 = SIGNATURE_NE ∨
    readLE f (e_lfanewOf f) 4 = SIGNATURE_PE) ∧
  canRead f (coffOfsOf f) SIZEOF_IMAGE_COFF_HEADER = true ∧
  canRead f (optOfsOf f) 2 = true ∧
  ((optTypeOf f = MAGIC_PE32 ∧
      canRead f (optOfsOf f) SIZEOF_IMAGE_OPTIONAL_HEADER_32 = true) ∨
   (optTypeOf f = MAGIC_PE64 ∧
      canRead f (optOfsOf f) SIZEOF_IMAGE_OPTIONAL_HEADER_64 = true))

/-- C8: for every mapping that passes the optional header
classification, pe_parse returns TooManyDirectories when the recorded
NumberOfRvaAndSizes exceeds MAX_DIRECTORIES = 16 (regardless of the
section count: the directory bound is checked first), returns
TooManySections when the directory count is in bounds and the recorded
NumberOfSections exceeds MAX_SECTIONS = 96, and every successful parse
leaves num_directories at most 16 and num_sections at most 96. -/
theorem C8_parse_bounds (f : PEFile) (h : passesClassification f) :
    (MAX_DIRECTORIES < numDirsOf f →
      (pe_parse f).1 = LIBPE_E_TOO_MANY_DIRECTORIES) ∧
    (numDirsOf f ≤ MAX_DIRECTORIES → MAX_SECTIONS < numSectionsOf f →
      (pe_parse f).1 = LIBPE_E_TOO_MANY_SECTIONS) ∧
    ((pe_parse f).1 = LIBPE_E_OK →
      (pe_parse f).2.1.num_directories ≤ MAX_DIRECTORIES ∧
      (pe_parse f).2.1.num_sections ≤ MAX_SECTIONS) := by
  obtain ⟨h1, h2, h3, h4, h5, h6⟩ := h
  have hred := pe_parse_reduction f h1 h2 h3
  simp only [coffOfsOf, optOfsOf, optTypeOf] at h4 h5 h6
  obtain ⟨st2, tr2, heq, hdirs, hsecs⟩ :=
    parseCoffOnwards_to_tail f (e_lfanewOf f)
      { dos_hdr := some 0, signature := readLE f (e_lfanewOf f) 4 }
      [⟨0, 2, false⟩, ⟨E_LFANEW_OFFSET, 4, false⟩,
       ⟨e_lfanewOf f, 4, true⟩] h4 h5 h6
  rw [heq] at hred
  simp only [numDirsOf, numSectionsOf, coffOfsOf, optOfsOf, optTypeOf]
  rw [← hdirs, ← hsecs, hred]
  exact ⟨fun hd => parseTail_too_many_dirs hd,
    fun hle hs => parseTail_too_many_sections hle hs,
    fun hok => parseTail_ok_bounds hok⟩

/-- C8, witness: the PE32 mapping pe17Dirs records 17 data directories
and is rejected with TooManyDirectories. -/
theorem C8_too_many_dirs_example :
    passesClassification pe17Dirs ∧
    MAX_DIRECTORIES < numDirsOf pe17Dirs ∧
    (pe_parse pe17Dirs).1 = LIBPE_E_TOO_MANY_DIRECTORIES :=
  ⟨by decide, by decide,
    (C8_parse_bounds pe17Dirs (by decide)).1 (by decide)⟩

end LibPE
